import Mathlib
/-!
Verification of the PathSpace guardrail scripts.

Shallow embedding of the Python guardrail tooling under `scripts/`:
`perf_guardrail.py` (tolerance evaluation, metric flattening, baseline
writing), `paint_example_capture.py` (manifest saving),
`check_paint_screenshot.py` (artifact verification and producer retry),
`paint_example_monitor.py` (revision-consistency checking) and
`capture_renderer_fps_traces.py` (stats-line parsing).  Numbers are
modelled as rationals, Python dicts as association lists in insertion
order, and file/process side effects as explicit event lists.
-/
set_option maxRecDepth 4000

/-- Lookup in a Python-dict-like association list (keys are unique in a
real dict; `find?` returns the first matching entry). -/
def lookupD {α : Type} (d : List (String × α)) (k : String) : Option α :=
  (d.find? (fun p => p.1 = k)).map (fun p => p.2)

/-- Python `dest[k] = v`: overwrite in place when the key exists,
otherwise append at the end (dict insertion order). -/
def insertD {α : Type} (d : List (String × α)) (k : String) (v : α) :
    List (String × α) :=
  if d.any (fun p => p.1 = k) then
    d.map (fun p => if p.1 = k then (k, v) else p)
  else d ++ [(k, v)]

/-- Python built-in `abs` on a rational. -/
def pyAbs (q : ℚ) : ℚ := if q < 0 then -q else q

/-- Python built-in `max` of two rationals (first argument on ties). -/
def pyMax (a b : ℚ) : ℚ := if a < b then b else a

/-- Embedding of `_max_tolerance` from `scripts/perf_guardrail.py`:
`percent_val = |baseline| * percent/100` when percent is given (else 0),
and the result is `max(percent_val, |absolute|)` (0 when absent). -/
def max_tolerance (baseline : ℚ) (percent absolute : Option ℚ) : ℚ :=
  let percent_val : ℚ :=
    match percent with
    | some p => pyAbs baseline * (p / 100)
    | none => 0
  let abs_val : ℚ :=
    match absolute with
    | some a => a
    | none => 0
  pyMax percent_val (pyAbs abs_val)

/-- A resolved tolerance (the `Tolerance` dataclass of
`perf_guardrail.py`): direction string plus optional percent/absolute. -/
structure Tolerance where
  direction : String
  percent : Option ℚ
  absolute : Option ℚ
deriving DecidableEq

/-- A raw tolerance entry as stored in the baseline JSON document
(`tolerances_raw.get(metric_name)`); every field may be absent/null. -/
structure TolInfo where
  direction : Option String
  percent : Option ℚ
  absolute : Option ℚ
deriving DecidableEq

/-- A scenario definition: its name and built-in default tolerances. -/
structure ScenarioDef where
  name : String
  tolerances : List (String × Tolerance)

/-- Decimal rendering of the source's `%.4f` float formatting (round to
four decimal places); the exact digits are never load-bearing for the
claims, only that the message is a definite string. -/
def fmt4 (q : ℚ) : String :=
  let n : ℤ := round (q * 10000)
  let sign := if n < 0 then ("-") else ("")
  let m := n.natAbs
  let frac := m % 10000
  let fracStr := toString frac
  let pad := String.mk (List.replicate (4 - fracStr.length) (Char.ofNat 48))
  sign ++ toString (m / 10000) ++ "." ++ pad ++ fracStr

/-- Message `"{scenario}: missing metric '{m}' in current run"`. -/
def missingMsg (scenarioName m : String) : String :=
  scenarioName ++ ": missing metric \x27" ++ m ++ "\x27 in current run"

/-- Message `"{scenario}: no tolerance configured for '{m}'"`. -/
def noToleranceMsg (scenarioName m : String) : String :=
  scenarioName ++ ": no tolerance configured for \x27" ++ m ++ "\x27"

/-- Message `"{scenario}: {m} regressed (baseline b, actual a, limit l)"`. -/
def regressedMsg (scenarioName m : String) (b a l : ℚ) : String :=
  scenarioName ++ ": " ++ m ++ " regressed (baseline " ++ fmt4 b ++
    ", actual " ++ fmt4 a ++ ", limit " ++ fmt4 l ++ ")"

/-- Message `"{scenario}: {m} dropped (baseline b, actual a, limit l)"`. -/
def droppedMsg (scenarioName m : String) (b a l : ℚ) : String :=
  scenarioName ++ ": " ++ m ++ " dropped (baseline " ++ fmt4 b ++
    ", actual " ++ fmt4 a ++ ", limit " ++ fmt4 l ++ ")"

/-- Message `"{scenario}: unsupported tolerance direction '{d}' for {m}"`. -/
def unsupportedMsg (scenarioName d m : String) : String :=
  scenarioName ++ ": unsupported tolerance direction \x27" ++ d ++
    "\x27 for " ++ m

/-- The directional evaluation at the tail of the `compare_metrics` loop:
compute `allowed` with `_max_tolerance`, then branch on the direction
string, emitting at most one problem message for this metric. -/
def evalTol (scenarioName metricName : String) (baselineValue actualValue : ℚ)
    (tol : Tolerance) : List String :=
  let allowed := max_tolerance baselineValue tol.percent tol.absolute
  if tol.direction = "increase" then
    if actualValue > baselineValue + allowed then
      [regressedMsg scenarioName metricName baselineValue actualValue
        (baselineValue + allowed)]
    else []
  else if tol.direction = "decrease" then
    if actualValue < baselineValue - allowed then
      [droppedMsg scenarioName metricName baselineValue actualValue
        (baselineValue - allowed)]
    else []
  else [unsupportedMsg scenarioName tol.direction metricName]

/-- One iteration of the `compare_metrics` loop for a single baseline
metric: missing-metric check, tolerance resolution (stored document
first, scenario defaults second, `direction or "increase"` defaulting),
then the directional evaluation. -/
def metricProblems (scenario : ScenarioDef)
    (tolerancesRaw : List (String × TolInfo))
    (resultMetrics : List (String × ℚ))
    (metricName : String) (baselineValue : ℚ) : List String :=
  match lookupD resultMetrics metricName with
  | none => [missingMsg scenario.name metricName]
  | some actualValue =>
    match lookupD tolerancesRaw metricName with
    | none =>
      match lookupD scenario.tolerances metricName with
      | none => [noToleranceMsg scenario.name metricName]
      | some tol =>
        evalTol scenario.name metricName baselineValue actualValue tol
    | some info =>
      let direction :=
        match info.direction with
        | none => "increase"
        | some d => if d = "" then "increase" else d
      evalTol scenario.name metricName baselineValue actualValue
        ⟨direction, info.percent, info.absolute⟩

/-- Embedding of `compare_metrics`: iterate over every metric recorded in
the stored baseline document, collecting all problem messages. -/
def compare_metrics (baselineMetrics : List (String × ℚ))
    (tolerancesRaw : List (String × TolInfo))
    (scenario : ScenarioDef)
    (resultMetrics : List (String × ℚ)) : List String :=
  baselineMetrics.flatMap
    (fun p => metricProblems scenario tolerancesRaw resultMetrics p.1 p.2)

/-- A Python JSON-ish value as `_flatten` sees it: numbers (int/float),
booleans (which Python treats as ints), strings, nested dicts, and
anything else (skipped by the `else: continue` branch). -/
inductive PyValue where
  | num (q : ℚ)
  | bool (b : Bool)
  | str (s : String)
  | obj (fields : List (String × PyValue))
  | other

/-- Embedding of `_dot_join`: `".".join(parts)`. -/
def dot_join : List String → String
  | [] => ""
  | [p] => p
  | p :: rest => p ++ "." ++ dot_join rest

mutual
/-- Embedding of `_flatten`'s loop over `payload.items()`, threading the
mutable `dest` dict through explicitly. -/
def flattenList (pre : List String) :
    List (String × PyValue) → List (String × ℚ) → List (String × ℚ)
  | [], dest => dest
  | (k, v) :: rest, dest => flattenList pre rest (flattenOne pre k v dest)

/-- One `_flatten` loop body: recurse into dicts, store numeric leaves
(booleans count as numbers in Python) under the dotted key, skip the
rest. -/
def flattenOne (pre : List String) (k : String) :
    PyValue → List (String × ℚ) → List (String × ℚ)
  | .obj fields, dest => flattenList (pre ++ [k]) fields dest
  | .num q, dest => insertD dest (dot_join (pre ++ [k])) q
  | .bool b, dest => insertD dest (dot_join (pre ++ [k])) (if b then 1 else 0)
  | .str _, dest => dest
  | .other, dest => dest
end

/-- The keys of an association-list dict, in insertion order. -/
def keysOf {α : Type} (d : List (String × α)) : List String := d.map Prod.fst

/-- A flat all-numeric mapping re-read as `_flatten` input. -/
def embedFlat (d : List (String × ℚ)) : List (String × PyValue) :=
  d.map (fun p => (p.1, PyValue.num p.2))

/-- A file-system effect performed by the JSON writers: opening a path
for writing (truncating it — from here a reader of that path can see a
partial document), writing data, closing, or an atomic rename. -/
inductive FsEvent where
  | openTrunc (path : String)
  | writeData (path : String) (data : String)
  | closeFile (path : String)
  | rename (src dst : String)
deriving DecidableEq

/-- Embedding of `_dump_json` from `scripts/perf_guardrail.py`: the
destination path itself is opened with mode "w" and the serialized
payload plus a newline is written into it. -/
def dump_json_events (path payload : String) : List FsEvent :=
  [FsEvent.openTrunc path, FsEvent.writeData path (payload ++ "\n"),
   FsEvent.closeFile path]

/-- Embedding of `path.with_suffix(path.suffix + ".tmp")` from `save_manifest`:
the old suffix is replaced by itself plus ".tmp", i.e. ".tmp" is
appended to the path. -/
def tmpPath (path : String) : String := path ++ ".tmp"

/-- Embedding of `save_manifest` from `scripts/paint_example_capture.py`:
write the payload to the temporary path, then `tmp_path.replace(path)`. -/
def save_manifest_events (path payload : String) : List FsEvent :=
  [FsEvent.openTrunc (tmpPath path),
   FsEvent.writeData (tmpPath path) (payload ++ "\n"),
   FsEvent.closeFile (tmpPath path),
   FsEvent.rename (tmpPath path) path]

/-- Does this event expose partial content at `dst` (a truncating open
or a data write on `dst` itself)? -/
def touchesDirect (dst : String) : FsEvent → Bool
  | FsEvent.openTrunc p => p = dst
  | FsEvent.writeData p _ => p = dst
  | _ => false

/-- A trace writes `dst` directly iff some event opens or writes `dst`
(rather than only renaming a finished file over it). -/
def writesDirect (dst : String) (events : List FsEvent) : Bool :=
  events.any (touchesDirect dst)

/-- Is the event a rename (the single replace step)? -/
def isRename : FsEvent → Bool
  | FsEvent.rename _ _ => true
  | _ => false

/-- The metric filter `main` applies before persisting a baseline:
only metrics the scenario declares tolerances for are kept. -/
def filterScenarioMetrics (scenario : ScenarioDef)
    (metrics : List (String × ℚ)) : List (String × ℚ) :=
  metrics.filter (fun p => (lookupD scenario.tolerances p.1).isSome)

/-- An observable step of a producer invocation: starting the process
(attempt number) or sleeping between attempts (milliseconds). -/
inductive RunEvent where
  | start (attempt : ℕ)
  | sleepMs (ms : ℕ)
deriving DecidableEq

/-- Embedding of the capture/retry block of `check_paint_screenshot.py`
`main` (run once; on non-zero exit sleep 0.5 s and run exactly once
more), parameterized by the exit codes of the two potential attempts.
Returns the event trace and the early-return exit code (`none` when the
script continues past the block). -/
def paint_screenshot_capture (exit1 exit2 : ℤ) :
    List RunEvent × Option ℤ :=
  if exit1 = 0 then ([RunEvent.start 1], none)
  else if exit2 = 0 then
    ([RunEvent.start 1, RunEvent.sleepMs 500, RunEvent.start 2], none)
  else
    ([RunEvent.start 1, RunEvent.sleepMs 500, RunEvent.start 2], some exit2)

/-- Embedding of `PerfContext.run` from `scripts/perf_guardrail.py`: the
command is started once; a non-zero return code without `allow_fail`
raises `RuntimeError` immediately — there is no retry. -/
def perf_run (returncode : ℤ) (argsStr : String) (allowFail : Bool) :
    List RunEvent × Except String ℤ :=
  ([RunEvent.start 1],
   if returncode ≠ 0 ∧ allowFail = false then
     Except.error ("command failed (" ++ toString returncode ++ "): "
       ++ argsStr)
   else Except.ok returncode)

/-- How many times the producer process was started in a trace. -/
def startCount (events : List RunEvent) : ℕ :=
  events.countP (fun e => match e with | RunEvent.start _ => true | _ => false)

/-- ASCII whitespace as Python's `str.strip` / regex `\s` treat it. -/
def isPySpace (c : Char) : Bool :=
  c == ' ' || c == '\t' || c == '\n' || c == '\r' || c == '\x0b' || c == '\x0c'

/-- Python `str.strip()`: drop whitespace from both ends. -/
def pyStrip (s : String) : String :=
  String.mk (((s.data.dropWhile isPySpace).reverse.dropWhile isPySpace).reverse)

/-- Numeric value of a run of decimal digit characters. -/
def digitsToNat (ds : List Char) : ℕ :=
  ds.foldl (fun a c => a * 10 + (c.toNat - 48)) 0

/-- Digit/underscore tail of a Python `int()` literal: underscores are
allowed only between digits. -/
def pyIntDigitsGo (acc : ℕ) : List Char → Option ℕ
  | [] => some acc
  | '_' :: c :: rest =>
    if c.isDigit then pyIntDigitsGo (acc * 10 + (c.toNat - 48)) rest else none
  | ['_'] => none
  | c :: rest =>
    if c.isDigit then pyIntDigitsGo (acc * 10 + (c.toNat - 48)) rest else none

/-- An unsigned Python `int()` literal body: at least one digit,
underscores only between digits. -/
def pyIntDigits : List Char → Option ℕ
  | c :: rest => if c.isDigit then pyIntDigitsGo (c.toNat - 48) rest else none
  | [] => none

/-- Python `int(text, 10)` on already-stripped text: optional sign, then
digits (with underscores allowed between digits). -/
def pyIntParse (s : String) : Option ℤ :=
  match s.data with
  | '+' :: rest => (pyIntDigits rest).map (fun n => (n : ℤ))
  | '-' :: rest => (pyIntDigits rest).map (fun n => -(n : ℤ))
  | l => (pyIntDigits l).map (fun n => (n : ℤ))

/-- Embedding of `load_expected_revision` from
`scripts/paint_example_monitor.py`: a missing marker file or one whose
stripped content is empty yields no expectation; otherwise the stripped
text is parsed with `int(text, 10)` (a `ValueError` becomes the error
case). The file's content is given as `none` (no file) or its text. -/
def load_expected_revision (file : Option String) :
    Except String (Option ℤ) :=
  match file with
  | none => Except.ok none
  | some content =>
    let text := pyStrip content
    if text = "" then Except.ok none
    else
      match pyIntParse text with
      | some n => Except.ok (some n)
      | none =>
        Except.error ("invalid literal for int() with base 10: " ++ text)

/-- Does the line start with the literal characters `##`? (consumed
before the whitespace/Revision part of the changelog header pattern). -/
def startsWithRevisionWord (l : List Char) : Bool :=
  match l with
  | 'R' :: 'e' :: 'v' :: 'i' :: 's' :: 'i' :: 'o' :: 'n' :: _ => true
  | _ => false

/-- The changelog header pattern `^##\s+Revision\s+(\d+)` of
`ensure_palette_log_entry`, applied to the stripped line: returns the
captured revision number when the line matches. -/
def paletteLineRevision (line : String) : Option ℕ :=
  match (pyStrip line).data with
  | '#' :: '#' :: rest =>
    if (rest.takeWhile isPySpace).isEmpty then none
    else
      let r2 := rest.dropWhile isPySpace
      if startsWithRevisionWord r2 then
        let r3 := r2.drop 8
        if (r3.takeWhile isPySpace).isEmpty then none
        else
          let r4 := r3.dropWhile isPySpace
          let ds := r4.takeWhile Char.isDigit
          if ds.isEmpty then none else some (digitsToNat ds)
      else none
  | _ => none

/-- Embedding of `ensure_palette_log_entry`: a missing changelog file is
a `FileNotFoundError`; otherwise some line's header revision must equal
the manifest revision, else a `RuntimeError` naming the revision. -/
def ensure_palette_log_entry (palettePath : String)
    (paletteFile : Option (List String)) (revision : ℤ) :
    Except String Unit :=
  match paletteFile with
  | none => Except.error ("Palette log not found: " ++ palettePath)
  | some lines =>
    if lines.any (fun l =>
        match paletteLineRevision l with
        | some n => (n : ℤ) = revision
        | none => false) then Except.ok ()
    else
      Except.error ("Palette log " ++ palettePath
        ++ " lacks an entry for manifest revision " ++ toString revision)

/-- The two stderr lines `main` prints when the expected-revision marker
disagrees with the manifest revision. -/
def revisionMismatchLines (manifestRev expectedRev : ℤ)
    (markerPath : String) : List String :=
  ["[paint-example-monitor] Manifest revision " ++ toString manifestRev
     ++ " does not match expected " ++ toString expectedRev ++ " ("
     ++ markerPath ++ ").",
   "Update the manifest and expected revision together via scripts/paint_example_capture.py."]

/-- The palette-log step of `main`: wrap `ensure_palette_log_entry`
errors in the stderr lines `main` prints before returning 1. -/
def monitor_palette_step (manifestRevision : ℤ) (palettePath : String)
    (paletteFile : Option (List String)) : Except (List String) Unit :=
  match ensure_palette_log_entry palettePath paletteFile
      manifestRevision with
  | Except.error e =>
    Except.error ["[paint-example-monitor] " ++ e,
      "Update docs/images/paint_example_palette_log.md when refreshing baselines."]
  | Except.ok _ => Except.ok ()

/-- The revision-consistency portion of `paint_example_monitor.main`:
load the expected-revision marker (parse failure is fatal), compare a
present expectation with the manifest revision, then require a palette
log entry for the manifest revision.  The error value holds the stderr
lines; any error makes `main` return 1. -/
def monitor_revision_check (manifestRevision : ℤ)
    (markerPath : String) (markerFile : Option String)
    (palettePath : String) (paletteFile : Option (List String)) :
    Except (List String) Unit :=
  match load_expected_revision markerFile with
  | Except.error e =>
    Except.error ["[paint-example-monitor] Failed to parse " ++ markerPath
      ++ ": " ++ e]
  | Except.ok none =>
    monitor_palette_step manifestRevision palettePath paletteFile
  | Except.ok (some e) =>
    if e = manifestRevision then
      monitor_palette_step manifestRevision palettePath paletteFile
    else Except.error (revisionMismatchLines manifestRevision e markerPath)

/-- Predicate stating that `msg` contains `val` verbatim as a substring. -/
def mentions (msg val : String) : Prop :=
  ∃ l r : List Char, msg.data = l ++ val.data ++ r

/-- A manifest capture entry as `load_manifest_entry` reads it: fields
may be absent in the JSON document. -/
structure ManifestEntry where
  width : Option ℤ
  height : Option ℤ
  sha256 : Option String
deriving DecidableEq

/-- The 8 KiB read loop of `compute_sha256`: split the file bytes into
successive `handle.read(8192)` chunks (fuel is the byte count, enough
because every chunk consumes at least one byte). -/
def readChunks : ℕ → List ℕ → List (List ℕ)
  | _, [] => []
  | 0, l => [l]
  | fuel + 1, l => l.take 8192 :: readChunks fuel (l.drop 8192)

/-- Embedding of `compute_sha256` from `check_paint_screenshot.py`: the
digest accumulates exactly the concatenation of the 8 KiB chunks; the
hash function itself (`hashlib.sha256` + `hexdigest`) is a parameter
mapping accumulated bytes to a hex string. -/
def compute_sha256 (hashFn : List ℕ → String) (fileBytes : List ℕ) :
    String :=
  hashFn (List.flatten (readChunks fileBytes.length fileBytes))

/-- The stderr lines printed for a PNG-header dimension mismatch. -/
def dimMismatchLines (baselinePath : String) (aw ah : ℤ) : List String :=
  ["[paint-example-screenshot] Baseline " ++ baselinePath
     ++ " has unexpected dimensions " ++ toString aw ++ "x" ++ toString ah,
   "Re-run scripts/paint_example_capture.py to refresh the file."]

/-- The stderr lines printed for a content-hash mismatch. -/
def hashMismatchLines (tagKey recorded actual : String) : List String :=
  ["[paint-example-screenshot] Baseline hash mismatch for tag \x27"
     ++ tagKey ++ "\x27",
   "  manifest sha: " ++ recorded,
   "  actual sha  : " ++ actual,
   "Run scripts/paint_example_capture.py --tags " ++ tagKey
     ++ " to update the baseline."]

/-- Embedding of the verification part of `load_manifest_entry`
(`check_paint_screenshot.py`): path agreement, manifest completeness,
argument dimensions, PNG header dimensions (`none` when the file is not
a valid PNG), then the streamed content hash; each failure prints its
lines and exits 1, success returns the actual hash. -/
def load_manifest_entry_check (tagKey resolvedEntryPath baselinePath :
    String) (argsWidth argsHeight : ℤ) (entry : ManifestEntry)
    (png : Option (ℤ × ℤ)) (fileBytes : List ℕ)
    (hashFn : List ℕ → String) : Except (List String) String :=
  if resolvedEntryPath ≠ baselinePath then
    Except.error
      ["[paint-example-screenshot] Baseline argument does not match manifest entry path",
       "  manifest path : " ++ resolvedEntryPath,
       "  argument path : " ++ baselinePath]
  else
    match entry.width, entry.height with
    | some w, some h =>
      if w ≠ argsWidth ∨ h ≠ argsHeight then
        Except.error
          ["[paint-example-screenshot] Dimension mismatch for tag \x27"
             ++ tagKey ++ "\x27",
           "  manifest: " ++ toString w ++ "x" ++ toString h,
           "  args    : " ++ toString argsWidth ++ "x"
             ++ toString argsHeight]
      else
        match png with
        | none =>
          Except.error ["[paint-example-screenshot] " ++ baselinePath
            ++ " is not a valid PNG file"]
        | some (aw, ah) =>
          if (aw, ah) ≠ (w, h) then
            Except.error (dimMismatchLines baselinePath aw ah)
          else
            match entry.sha256 with
            | none =>
              Except.error ["[paint-example-screenshot] Manifest entry \x27"
                ++ tagKey ++ "\x27 is missing sha256"]
            | some recorded =>
              let actual := compute_sha256 hashFn fileBytes
              if actual ≠ recorded then
                Except.error (hashMismatchLines tagKey recorded actual)
              else Except.ok actual
    | _, _ =>
      Except.error ["[paint-example-screenshot] Manifest entry \x27"
        ++ tagKey ++ "\x27 is missing width/height"]

/-- Exit status: `sys.exit(1)` on any printed failure, 0 on success. -/
def exitCodeOf {α : Type} : Except (List String) α → ℕ
  | Except.error _ => 1
  | Except.ok _ => 0

/-- Python `value.rstrip(",")`: remove every trailing comma. -/
def rstripComma (s : String) : String :=
  String.mk ((s.data.reverse.dropWhile (fun c => c == ',')).reverse)

/-- A character of the regex class `[A-Za-z%]` (the unit suffix). -/
def isUnitChar (c : Char) : Bool := c.isAlpha || c == '%'

/-- Value of a digit run read as the fractional part `.ds`. -/
def fracValue (ds : List Char) : ℚ :=
  (digitsToNat ds : ℚ) / ((10 : ℚ) ^ ds.length)

/-- The anchored regex `([-+]?\d+(?:\.\d+)?)([A-Za-z%]+)?` of
`parse_numeric`: optional sign, mandatory digit run, optional fractional
part (only taken when at least one digit follows the dot), then an
optional unit run; trailing unmatched characters are ignored, and the
whole match fails when no digit follows the optional sign.  Returns
`float(group(1))` and `group(2)`. -/
def matchNumber (l : List Char) : Option (ℚ × Option String) :=
  let sign : ℚ := if l.head? == some '-' then -1 else 1
  let rest : List Char :=
    if l.head? == some '+' || l.head? == some '-' then l.tail else l
  let ds := rest.takeWhile Char.isDigit
  if ds.isEmpty then none
  else
    let afterInt := rest.dropWhile Char.isDigit
    let fracRest : ℚ × List Char :=
      if afterInt.head? == some '.' then
        if (afterInt.tail.takeWhile Char.isDigit).isEmpty then
          (0, afterInt)
        else
          (fracValue (afterInt.tail.takeWhile Char.isDigit),
            afterInt.tail.dropWhile Char.isDigit)
      else (0, afterInt)
    let unitChars := fracRest.2.takeWhile isUnitChar
    some (sign * ((digitsToNat ds : ℚ) + fracRest.1),
      if unitChars.isEmpty then none else some (String.mk unitChars))

/-- Python `str.lower()` (ASCII). -/
def lowerStr (s : String) : String := String.mk (s.data.map Char.toLower)

/-- Embedding of `parse_numeric` from
`capture_renderer_fps_traces.py`: strip trailing commas, apply the
number regex; a case-insensitive `mb`/`gb` unit converts the value to
bytes (×1024² / ×1024³) with unit `bytes`. -/
def parse_numeric (value : String) : Option ℚ × Option String :=
  let cleaned := rstripComma value
  match matchNumber cleaned.data with
  | none => (none, none)
  | some (number, unitOpt) =>
    match unitOpt with
    | some unit =>
      if lowerStr unit = "mb" then
        (some (number * (1024 * 1024)), some ("bytes"))
      else if lowerStr unit = "gb" then
        (some (number * (1024 * 1024 * 1024)), some ("bytes"))
      else (some number, some unit)
    | none => (some number, none)

/-- One parsed `key=value` record of `parse_metrics_line`: the raw
(comma-stripped) token text, plus the numeric value and unit when the
regex produced them. -/
structure MetricEntry where
  raw : String
  value : Option ℚ
  unit : Option String
deriving DecidableEq

/-- Build the per-token record exactly as the `parse_metrics_line` loop
body does (`raw` always; `value`/`unit` only from `parse_numeric`). -/
def mkEntry (value : String) : MetricEntry :=
  let r := parse_numeric value
  { raw := rstripComma value, value := r.1, unit := r.2 }

/-- A character of the key class `[A-Za-z_]`. -/
def isKeyChar (c : Char) : Bool := c.isAlpha || c == '_'

/-- Scanner for `re.findall(r"([A-Za-z_]+)=([^\s]+)", line)`: at each
position try a maximal key run, a literal `=`, and a non-empty maximal
non-whitespace value run; on failure advance one character (fuel is the
line length, enough because every step consumes at least one
character). -/
def kvScanAux : ℕ → List Char → List (String × String)
  | 0, _ => []
  | _ + 1, [] => []
  | fuel + 1, c :: rest =>
    if isKeyChar c then
      match rest.dropWhile isKeyChar with
      | '=' :: rest2 =>
        let valueChars := rest2.takeWhile (fun ch => !(isPySpace ch))
        if valueChars.isEmpty then kvScanAux fuel rest
        else
          (String.mk (c :: rest.takeWhile isKeyChar),
              String.mk valueChars)
            :: kvScanAux fuel (rest2.drop valueChars.length)
      | _ => kvScanAux fuel rest
    else kvScanAux fuel rest

/-- Embedding of `KV_PATTERN.findall(line)`. -/
def kvScan (line : String) : List (String × String) :=
  kvScanAux line.data.length line.data

/-- Embedding of `parse_metrics_line`: fold the found tokens into a
dict of per-key records. -/
def parse_metrics_line (line : String) : List (String × MetricEntry) :=
  (kvScan line).foldl (fun d kv => insertD d kv.1 (mkEntry kv.2)) []

/-- Does the text start with an optionally signed digit — the exact
condition for the number regex to match at all? -/
def startsNumeric : List Char → Bool
  | [] => false
  | c :: rest =>
    if c == '+' || c == '-' then
      match rest with
      | [] => false
      | d :: _ => d.isDigit
    else c.isDigit

theorem pyAbs_eq_abs (q : ℚ) : pyAbs q = |q| := by
  unfold pyAbs
  split
  · exact (abs_of_neg (by assumption)).symm
  · exact (abs_of_nonneg (not_lt.mp (by assumption))).symm

theorem pyMax_eq_max (a b : ℚ) : pyMax a b = max a b := by
  unfold pyMax
  split
  · exact (max_eq_right (le_of_lt (by assumption))).symm
  · exact (max_eq_left (not_lt.mp (by assumption))).symm

theorem max_tolerance_eq (b : ℚ) (p a : Option ℚ) :
    max_tolerance b p a =
      max (p.elim 0 (fun pv => |b| * (pv / 100))) (a.elim 0 (fun av => |av|)) := by
  cases p <;> cases a <;>
    simp [max_tolerance, pyMax_eq_max, pyAbs_eq_abs, abs_zero]

/-- Helper: two strings that end in different characters differ. -/
theorem append_last_char_ne (x y : String) (c d : Char) (hcd : c ≠ d) :
    x ++ String.mk [c] ≠ y ++ String.mk [d] := by
  intro h
  have hdata : x.data ++ [c] = y.data ++ [d] := by
    have := congrArg String.data h
    simpa using this
  have h1 : (x.data ++ [c]).getLast? = some c := List.getLast?_concat _
  have h2 : (y.data ++ [d]).getLast? = some d := List.getLast?_concat _
  rw [hdata, h2] at h1
  exact hcd (Option.some.inj h1).symm

/-- C1 counterexample: the claim's allowed-deviation formula
`max(|b|*p/100, a)` (no absolute value on `a`) disagrees with
`_max_tolerance`, which takes `abs(absolute)`: with baseline 10, fresh 12
and a tolerance of `absolute = -5`, the code allows the change (limit 15)
while the claimed formula would report a regression (limit 10). -/
theorem tolerance_claim_counterexample :
    ¬ (∀ (b f : ℚ) (p a : Option ℚ),
        (evalTol ("s") ("m") b f ⟨"increase", p, a⟩ ≠ [] ↔
          f > b + max (p.elim 0 (fun pv => |b| * (pv / 100)))
            (a.elim 0 (fun av => av)))) := by
  intro h
  have h2 := h 10 12 none (some (-5))
  have hr : (12 : ℚ) > 10 + max ((none : Option ℚ).elim 0
      (fun pv => |(10 : ℚ)| * (pv / 100)))
      ((some (-5 : ℚ)).elim 0 (fun av => av)) := by
    norm_num
  have hne := h2.mpr hr
  apply hne
  norm_num [evalTol, max_tolerance, pyMax, pyAbs]

/-- C1 (amended): with direction increase-bad, the evaluation reports a
regression iff `fresh > baseline + max(|b|*p/100 if p set else 0, |a| if
a set else 0)` (the absolute floor enters through its absolute value);
in particular with baseline 10 and tolerance percent 15, a fresh value
of 11.4 passes and 11.6 fails. -/
theorem tolerance_increase_iff_amended :
    ∀ (n m : String) (b f : ℚ) (p a : Option ℚ),
      (evalTol n m b f ⟨"increase", p, a⟩ ≠ [] ↔
        f > b + max (p.elim 0 (fun pv => |b| * (pv / 100)))
          (a.elim 0 (fun av => |av|)))
      ∧ evalTol n m 10 (57/5) ⟨"increase", some 15, none⟩ = []
      ∧ evalTol n m 10 (58/5) ⟨"increase", some 15, none⟩ ≠ [] := by
  intro n m b f p a
  refine ⟨?_, ?_, ?_⟩
  · rw [← max_tolerance_eq]
    unfold evalTol
    simp only [if_pos rfl]
    by_cases hc : f > b + max_tolerance b p a
    · simp [hc]
    · simp [hc]
  · norm_num [evalTol, max_tolerance, pyMax, pyAbs]
  · norm_num [evalTol, max_tolerance, pyMax, pyAbs]

/-- C1 witness: the amended theorem applied at the spec's own scenario. -/
theorem tolerance_increase_iff_amended_witness :
    evalTol ("path_renderer2d") ("full.avgMs") 10 (57/5)
      ⟨"increase", some 15, none⟩ = [] :=
  (tolerance_increase_iff_amended ("path_renderer2d") ("full.avgMs")
    0 0 none none).2.1

/-- C4: a baseline metric absent from the fresh run contributes a
missing-metric failure naming that metric, and every problem any other
baseline metric produces is still collected in the comparison's result
(the loop continues instead of stopping at the first failure). -/
theorem compare_metrics_missing_metric :
    ∀ (scenario : ScenarioDef) (tolRaw : List (String × TolInfo))
      (bm res : List (String × ℚ)) (m : String) (bv : ℚ),
      ((m, bv) ∈ bm → lookupD res m = none →
        missingMsg scenario.name m ∈ compare_metrics bm tolRaw scenario res)
      ∧ (∀ (m2 : String) (bv2 : ℚ), (m2, bv2) ∈ bm →
          ∀ msg ∈ metricProblems scenario tolRaw res m2 bv2,
            msg ∈ compare_metrics bm tolRaw scenario res) := by
  intro scenario tolRaw bm res m bv
  constructor
  · intro hmem hnone
    exact List.mem_flatMap.mpr
      ⟨(m, bv), hmem, by simp [metricProblems, hnone]⟩
  · intro m2 bv2 hmem msg hmsg
    exact List.mem_flatMap.mpr ⟨(m2, bv2), hmem, hmsg⟩

/-- C4 witness: the spec's scenario, where the fresh run lacks
`incremental.fps` tracked by the baseline. -/
theorem compare_metrics_missing_metric_witness :
    missingMsg ("path_renderer2d") ("incremental.fps") ∈
      compare_metrics [("incremental.fps", 10)] [] ⟨"path_renderer2d", []⟩ [] :=
  (compare_metrics_missing_metric ⟨"path_renderer2d", []⟩ []
    [("incremental.fps", 10)] [] "incremental.fps" 10).1
    (by simp) (by rfl)

/-- C7: a baseline metric with no tolerance in the stored document and
none in the scenario defaults yields exactly the distinct
no-tolerance-configured failure (the metric is not evaluated), and that
message differs from every measured-regression message. -/
theorem compare_metrics_unconfigured_tolerance :
    ∀ (scenario : ScenarioDef) (tolRaw : List (String × TolInfo))
      (res : List (String × ℚ)) (m : String) (bv av : ℚ),
      lookupD res m = some av →
      lookupD tolRaw m = none →
      lookupD scenario.tolerances m = none →
      metricProblems scenario tolRaw res m bv =
        [noToleranceMsg scenario.name m]
      ∧ (∀ (n2 m2 : String) (b a l : ℚ),
          noToleranceMsg scenario.name m ≠ regressedMsg n2 m2 b a l)
      ∧ (∀ (n2 m2 : String) (b a l : ℚ),
          noToleranceMsg scenario.name m ≠ droppedMsg n2 m2 b a l) := by
  intro scenario tolRaw res m bv av hres hraw hscen
  refine ⟨by simp [metricProblems, hres, hraw, hscen], ?_, ?_⟩
  · intro n2 m2 b a l
    exact append_last_char_ne _ _ '\x27' ')' (by decide)
  · intro n2 m2 b a l
    exact append_last_char_ne _ _ '\x27' ')' (by decide)

/-- C7 witness: concrete instance with an empty tolerance configuration. -/
theorem compare_metrics_unconfigured_tolerance_witness :
    metricProblems ⟨"s", []⟩ [] [("summary.averageFps", 1)]
      "summary.averageFps" 1 = [noToleranceMsg ("s") ("summary.averageFps")] :=
  (compare_metrics_unconfigured_tolerance ⟨"s", []⟩ []
    [("summary.averageFps", 1)] "summary.averageFps" 1 1
    (by rfl) (by rfl) (by rfl)).1

/-- C10: a stored tolerance whose direction is absent or the empty string
is evaluated under the increase policy (same problems as an explicit
"increase" tolerance, regressions flagged iff the value exceeds
baseline + allowed), while a non-empty direction other than
"increase"/"decrease" yields the unsupported-direction failure. -/
theorem compare_metrics_direction_default :
    ∀ (scenario : ScenarioDef) (tolRaw : List (String × TolInfo))
      (res : List (String × ℚ)) (m : String) (bv av : ℚ) (info : TolInfo),
      lookupD res m = some av →
      lookupD tolRaw m = some info →
      ((info.direction = none ∨ info.direction = some "" →
         metricProblems scenario tolRaw res m bv =
           evalTol scenario.name m bv av
             ⟨"increase", info.percent, info.absolute⟩
         ∧ (metricProblems scenario tolRaw res m bv ≠ [] ↔
             av > bv + max_tolerance bv info.percent info.absolute))
       ∧ (∀ d, info.direction = some d → d ≠ "" → d ≠ "increase" →
           d ≠ "decrease" →
           metricProblems scenario tolRaw res m bv =
             [unsupportedMsg scenario.name d m])) := by
  intro scenario tolRaw res m bv av info hres hraw
  constructor
  · intro hdir
    have hd : (match info.direction with
        | none => "increase"
        | some d => if d = "" then "increase" else d) = "increase" := by
      rcases hdir with h | h <;> simp [h]
    constructor
    · simp [metricProblems, hres, hraw, hd]
    · simp only [metricProblems, hres, hraw, hd]
      unfold evalTol
      simp only [if_pos rfl]
      by_cases hc : av > bv + max_tolerance bv info.percent info.absolute
      · simp [hc]
      · simp [hc]
  · intro d hd hne hinc hdec
    simp [metricProblems, hres, hraw, hd, hne, evalTol, hinc, hdec]

/-- C10 witness: a tolerance entry with no direction field is evaluated
as an increase-bad tolerance. -/
theorem compare_metrics_direction_default_witness :
    metricProblems ⟨"s", []⟩ [("m", ⟨none, none, none⟩)] [("m", 1)] "m" 1 =
      evalTol ("s") ("m") 1 1 ⟨"increase", none, none⟩ :=
  (((compare_metrics_direction_default ⟨"s", []⟩
    [("m", ⟨none, none, none⟩)] [("m", 1)] "m" 1 1 ⟨none, none, none⟩
    (by rfl) (by rfl)).1 (Or.inl rfl)).1)

theorem insertD_of_not_mem {α : Type} (d : List (String × α)) (k : String)
    (v : α) (h : k ∉ keysOf d) : insertD d k v = d ++ [(k, v)] := by
  unfold insertD
  rw [if_neg]
  intro hc
  simp only [List.any_eq_true, decide_eq_true_eq] at hc
  obtain ⟨p, hp, hk⟩ := hc
  exact h (List.mem_map.mpr ⟨p, hp, hk⟩)

theorem insertD_nodupK {α : Type} (d : List (String × α)) (k : String)
    (v : α) (h : (keysOf d).Nodup) : (keysOf (insertD d k v)).Nodup := by
  unfold insertD
  split
  · have heq : keysOf (d.map (fun p => if p.1 = k then (k, v) else p))
        = keysOf d := by
      simp only [keysOf, List.map_map]
      apply List.map_congr_left
      intro p _
      by_cases hk : p.1 = k
      · simp [Function.comp, hk]
      · simp [Function.comp, hk]
    rw [heq]
    exact h
  · rename_i hnot
    have hk : k ∉ keysOf d := by
      intro hmem
      apply hnot
      obtain ⟨p, hp, he⟩ := List.mem_map.mp hmem
      simp only [List.any_eq_true, decide_eq_true_eq]
      exact ⟨p, hp, he⟩
    have heq : keysOf (d ++ [(k, v)]) = keysOf d ++ [k] := by
      simp [keysOf]
    rw [heq]
    simp [List.nodup_append, h, hk]

theorem flatten_nodupK :
    ∀ (pre : List String) (l : List (String × PyValue))
      (dest : List (String × ℚ)),
      (keysOf dest).Nodup → (keysOf (flattenList pre l dest)).Nodup := by
  apply flattenList.induct
    (motive_2 := fun pre k v dest =>
      (keysOf dest).Nodup → (keysOf (flattenOne pre k v dest)).Nodup)
  · intro pre k fields dest ih h
    simpa [flattenOne] using ih h
  · intro pre k q dest h
    simpa [flattenOne] using insertD_nodupK dest (dot_join (pre ++ [k])) q h
  · intro pre k b dest h
    simpa [flattenOne] using
      insertD_nodupK dest (dot_join (pre ++ [k])) (if b then 1 else 0) h
  · intro pre k s dest h
    simpa [flattenOne] using h
  · intro pre k dest h
    simpa [flattenOne] using h
  · intro pre dest h
    simpa [flattenList] using h
  · intro pre k v rest dest m2 m1 h
    simpa [flattenList] using m1 (m2 h)

theorem flattenList_embed (d : List (String × ℚ)) :
    ∀ dest : List (String × ℚ), (keysOf d).Nodup →
      (∀ k ∈ keysOf d, k ∉ keysOf dest) →
      flattenList [] (embedFlat d) dest = dest ++ d := by
  induction d with
  | nil =>
    intro dest _ _
    simp [embedFlat, flattenList]
  | cons p rest ih =>
    intro dest hnd hdisj
    obtain ⟨k, v⟩ := p
    have hkd : keysOf ((k, v) :: rest) = k :: keysOf rest := by
      simp [keysOf]
    rw [hkd] at hnd hdisj
    have hknotin : k ∉ keysOf dest := hdisj k (List.mem_cons_self _ _)
    have hstep : flattenList [] (embedFlat ((k, v) :: rest)) dest
        = flattenList [] (embedFlat rest) (insertD dest k v) := by
      simp [embedFlat, flattenList, flattenOne, dot_join]
    rw [hstep, insertD_of_not_mem dest k v hknotin]
    have hkeysapp : keysOf (dest ++ [(k, v)]) = keysOf dest ++ [k] := by
      simp [keysOf]
    rw [ih (dest ++ [(k, v)]) (List.nodup_cons.mp hnd).2 ?_]
    · simp
    · intro k2 hk2
      rw [hkeysapp]
      intro hmem
      rcases List.mem_append.mp hmem with hin | hone
      · exact hdisj k2 (List.mem_cons_of_mem _ hk2) hin
      · have : k2 = k := by simpa using hone
        exact (List.nodup_cons.mp hnd).1 (this ▸ hk2)

/-- C8: flattening is idempotent.  A mapping whose values are already
numeric leaves is returned unchanged by `_flatten`, and flattening the
flat result of any `_flatten` run reproduces it exactly. -/
theorem flatten_idempotent :
    (∀ d : List (String × ℚ), (keysOf d).Nodup →
       flattenList [] (embedFlat d) [] = d)
    ∧ (∀ payload : List (String × PyValue),
       flattenList [] (embedFlat (flattenList [] payload [])) []
         = flattenList [] payload []) := by
  have base : ∀ d : List (String × ℚ), (keysOf d).Nodup →
      flattenList [] (embedFlat d) [] = d := by
    intro d h
    simpa using flattenList_embed d [] h (by simp [keysOf])
  refine ⟨base, fun payload => ?_⟩
  exact base _ (flatten_nodupK [] payload [] (by simp [keysOf]))

/-- C8 witness: a concrete flat numeric mapping is left unchanged. -/
theorem flatten_idempotent_witness :
    flattenList [] (embedFlat [("full.avgMs", 10), ("full.fps", 2)]) []
      = [("full.avgMs", 10), ("full.fps", 2)] :=
  flatten_idempotent.1 _ (by decide)

theorem tmpPath_ne (p : String) : tmpPath p ≠ p := by
  intro h
  have hlen := congrArg String.length h
  have h4 : (".tmp" : String).length = 4 := rfl
  rw [tmpPath, String.length_append, h4] at hlen
  omega

/-- C2 counterexample: the scenario-baseline writer `_dump_json` opens
the destination path itself for writing and its trace contains no
replace step at all, so a concurrent reader of the baseline path can
observe a partially written document. -/
theorem baseline_save_claim_counterexample :
    writesDirect ("performance_baseline.json")
      (dump_json_events ("performance_baseline.json") ("payload")) = true
    ∧ (dump_json_events ("performance_baseline.json") ("payload")).any isRename
        = false := by
  decide

/-- C2 (amended): saving the screenshot manifest (`save_manifest`) is
atomic — the bytes go to a temporary ".tmp" path and the destination is
only ever touched by the final rename — but the scenario performance
baseline (`_dump_json`) is written directly to the destination path with
no temporary file or replace step; the persisted metric map is the
current metrics filtered to those the scenario declares tolerances
for. -/
theorem baseline_save_amended :
    ∀ (path payload : String) (scenario : ScenarioDef)
      (metrics : List (String × ℚ)),
      writesDirect path (save_manifest_events path payload) = false
      ∧ (save_manifest_events path payload).getLast?
          = some (FsEvent.rename (tmpPath path) path)
      ∧ writesDirect path (dump_json_events path payload) = true
      ∧ (∀ p ∈ filterScenarioMetrics scenario metrics,
          (lookupD scenario.tolerances p.1).isSome ∧ p ∈ metrics) := by
  intro path payload scenario metrics
  refine ⟨?_, rfl, ?_, ?_⟩
  · simp [writesDirect, save_manifest_events, touchesDirect, tmpPath_ne path]
  · simp [writesDirect, dump_json_events, touchesDirect]
  · intro p hp
    have h := List.mem_filter.mp hp
    exact ⟨h.2, h.1⟩

/-- C2 witness: the amended theorem at a concrete baseline path. -/
theorem baseline_save_amended_witness :
    writesDirect ("docs/perf/performance_baseline.json")
      (dump_json_events ("docs/perf/performance_baseline.json") ("data"))
        = true :=
  (baseline_save_amended ("docs/perf/performance_baseline.json") ("data")
    ⟨"s", []⟩ []).2.2.1

/-- C3 counterexample: a perf-guardrail producer (run through
`PerfContext.run` with `allow_fail` unset) that exits non-zero is
started exactly once — not retried — and the run fails immediately, so
the claim's "every scenario producer invocation gets exactly one retry"
is false on the perf guardrail. -/
theorem producer_retry_claim_counterexample :
    startCount (perf_run 1 "path_renderer2d_benchmark" false).1 = 1
    ∧ startCount (perf_run 1 "path_renderer2d_benchmark" false).1 ≠ 2
    ∧ (perf_run 1 "path_renderer2d_benchmark" false).2
        = Except.error ("command failed (1): path_renderer2d_benchmark") :=
  ⟨rfl, by decide, rfl⟩

/-- C3 (amended): the screenshot check's producer is retried exactly
once after a fixed 0.5 s backoff and never started more than twice, and
the scenario fails with the retry's exit code when both attempts exit
non-zero; the perf guardrail's producer invocations are not retried — a
non-zero exit without `allow_fail` fails immediately after one start. -/
theorem producer_retry_amended :
    ∀ (e1 e2 rc : ℤ) (argsStr : String),
      startCount (paint_screenshot_capture e1 e2).1 ≤ 2
      ∧ (e1 ≠ 0 → (paint_screenshot_capture e1 e2).1
          = [RunEvent.start 1, RunEvent.sleepMs 500, RunEvent.start 2])
      ∧ (e1 = 0 → (paint_screenshot_capture e1 e2).1 = [RunEvent.start 1])
      ∧ (e1 ≠ 0 → e2 ≠ 0 → (paint_screenshot_capture e1 e2).2 = some e2)
      ∧ (rc ≠ 0 → perf_run rc argsStr false
          = ([RunEvent.start 1], Except.error
              ("command failed (" ++ toString rc ++ "): " ++ argsStr))) := by
  intro e1 e2 rc argsStr
  refine ⟨?_, ?_, ?_, ?_, ?_⟩
  · by_cases h1 : e1 = 0
    · simp [paint_screenshot_capture, h1, startCount]
    · by_cases h2 : e2 = 0 <;>
        simp [paint_screenshot_capture, h1, h2, startCount]
  · intro h1
    by_cases h2 : e2 = 0 <;> simp [paint_screenshot_capture, h1, h2]
  · intro h1
    simp [paint_screenshot_capture, h1]
  · intro h1 h2
    simp [paint_screenshot_capture, h1, h2]
  · intro hrc
    simp [perf_run, hrc]

/-- C3 witness: both attempts fail in the screenshot check, the scenario
fails with the retry's exit code. -/
theorem producer_retry_amended_witness :
    (paint_screenshot_capture 1 1).2 = some 1 :=
  (producer_retry_amended 1 1 0 "").2.2.2.1 (by decide) (by decide)

theorem monitor_palette_step_ok_iff (rev : ℤ) (palettePath : String)
    (paletteFile : Option (List String)) :
    monitor_palette_step rev palettePath paletteFile = Except.ok () ↔
      ∃ lines, paletteFile = some lines ∧
        ∃ l ∈ lines, ∃ n : ℕ,
          paletteLineRevision l = some n ∧ (n : ℤ) = rev := by
  cases paletteFile with
  | none =>
    simp [monitor_palette_step, ensure_palette_log_entry]
  | some lines =>
    by_cases hany : lines.any (fun l =>
        match paletteLineRevision l with
        | some n => decide ((n : ℤ) = rev)
        | none => false) = true
    · constructor
      · intro _
        obtain ⟨l, hl, hp⟩ := List.any_eq_true.mp hany
        refine ⟨lines, rfl, l, hl, ?_⟩
        cases hrev : paletteLineRevision l with
        | none => rw [hrev] at hp; simp at hp
        | some n =>
          rw [hrev] at hp
          exact ⟨n, rfl, by simpa using hp⟩
      · intro _
        simp [monitor_palette_step, ensure_palette_log_entry, hany]
    · constructor
      · intro h
        exfalso
        simp [monitor_palette_step, ensure_palette_log_entry, hany] at h
      · rintro ⟨lines2, hlines, l, hl, n, hrev, hn⟩
        exfalso
        apply hany
        apply List.any_eq_true.mpr
        refine ⟨l, by simpa using (Option.some.inj hlines) ▸ hl, ?_⟩
        rw [hrev]
        simpa using hn

/-- C5: the revision-consistency check passes iff any existing,
non-empty expected-revision marker parses to exactly the manifest
revision (a missing or empty marker is tolerated) and the palette log
contains a header entry for the manifest revision; a mismatch is fatal
with both revision values named, and a palette-log failure for an
existing log names the manifest revision. -/
theorem revision_consistency_check :
    ∀ (rev : ℤ) (markerPath : String) (markerFile : Option String)
      (palettePath : String) (paletteFile : Option (List String)),
      ((monitor_revision_check rev markerPath markerFile palettePath
          paletteFile = Except.ok ()) ↔
        ((∀ content, markerFile = some content → pyStrip content ≠ "" →
            pyIntParse (pyStrip content) = some rev)
         ∧ ∃ lines, paletteFile = some lines ∧
             ∃ l ∈ lines, ∃ n : ℕ,
               paletteLineRevision l = some n ∧ (n : ℤ) = rev))
      ∧ (∀ e, load_expected_revision markerFile = Except.ok (some e) →
          e ≠ rev →
          monitor_revision_check rev markerPath markerFile palettePath
              paletteFile
            = Except.error (revisionMismatchLines rev e markerPath)
          ∧ ∃ line ∈ revisionMismatchLines rev e markerPath,
              mentions line (toString rev) ∧ mentions line (toString e))
      ∧ (∀ lines msg, paletteFile = some lines →
          ensure_palette_log_entry palettePath (some lines) rev
            = Except.error msg → mentions msg (toString rev))
      ∧ (∀ msg, (load_expected_revision markerFile = Except.ok none ∨
            load_expected_revision markerFile = Except.ok (some rev)) →
          ensure_palette_log_entry palettePath paletteFile rev
            = Except.error msg →
          monitor_revision_check rev markerPath markerFile palettePath
              paletteFile = Except.error
            ["[paint-example-monitor] " ++ msg,
             "Update docs/images/paint_example_palette_log.md when refreshing baselines."]) := by
  intro rev markerPath markerFile palettePath paletteFile
  refine ⟨?_, ?_, ?_, ?_⟩
  · cases markerFile with
    | none =>
      simp only [monitor_revision_check, load_expected_revision]
      rw [monitor_palette_step_ok_iff]
      constructor
      · intro h
        exact ⟨by intro c hc; exact absurd hc (by simp), h⟩
      · intro h
        exact h.2
    | some content =>
      by_cases hempty : pyStrip content = ""
      · have hload : load_expected_revision (some content)
            = Except.ok none := by
          simp [load_expected_revision, hempty]
        simp only [monitor_revision_check, hload]
        rw [monitor_palette_step_ok_iff]
        constructor
        · intro h
          refine ⟨?_, h⟩
          intro c hc hne
          exact absurd (Option.some.inj hc ▸ hempty) hne
        · intro h
          exact h.2
      · cases hparse : pyIntParse (pyStrip content) with
        | none =>
          have hload : load_expected_revision (some content)
              = Except.error ("invalid literal for int() with base 10: "
                ++ pyStrip content) := by
            simp [load_expected_revision, hempty, hparse]
          constructor
          · intro h
            exfalso
            simp only [monitor_revision_check, hload] at h
            simp at h
          · rintro ⟨ha, -⟩
            exfalso
            have := ha content rfl hempty
            rw [hparse] at this
            simp at this
        | some n =>
          have hload : load_expected_revision (some content)
              = Except.ok (some n) := by
            simp [load_expected_revision, hempty, hparse]
          simp only [monitor_revision_check, hload]
          by_cases hn : n = rev
          · subst hn
            rw [if_pos rfl, monitor_palette_step_ok_iff]
            constructor
            · intro h
              refine ⟨?_, h⟩
              intro c hc _
              rw [← Option.some.inj hc, hparse]
            · intro h
              exact h.2
          · rw [if_neg hn]
            constructor
            · intro h
              simp at h
            · rintro ⟨ha, -⟩
              exfalso
              apply hn
              have := ha content rfl hempty
              rw [hparse] at this
              exact Option.some.inj this
  · intro e hload hne
    constructor
    · simp [monitor_revision_check, hload, hne]
    · refine ⟨"[paint-example-monitor] Manifest revision "
        ++ toString rev ++ " does not match expected " ++ toString e
        ++ " (" ++ markerPath ++ ").", by simp [revisionMismatchLines], ?_, ?_⟩
      · exact ⟨("[paint-example-monitor] Manifest revision " : String).data,
          (" does not match expected " ++ toString e ++ " (" ++ markerPath
            ++ ").").data, by simp [List.append_assoc]⟩
      · exact ⟨("[paint-example-monitor] Manifest revision "
            ++ toString rev ++ " does not match expected " : String).data,
          (" (" ++ markerPath ++ ").").data, by simp [List.append_assoc]⟩
  · intro lines msg hpf hens
    by_cases hany : lines.any (fun l =>
        match paletteLineRevision l with
        | some n => decide ((n : ℤ) = rev)
        | none => false) = true
    · simp [ensure_palette_log_entry, hany] at hens
    · simp only [ensure_palette_log_entry, Bool.not_eq_true] at hens hany
      rw [hany] at hens
      simp only [Bool.false_eq_true, if_false, Except.error.injEq] at hens
      refine ⟨("Palette log " ++ palettePath
        ++ " lacks an entry for manifest revision ").data, [], ?_⟩
      rw [← hens]
      simp
  · intro msg hload hens
    rcases hload with hload | hload <;>
      simp [monitor_revision_check, hload, monitor_palette_step, hens]

/-- C5 witness: the spec's scenario — manifest revision 4, marker file
containing `3` — is fatal with both values in the message. -/
theorem revision_consistency_check_witness :
    monitor_revision_check 4 "revision.txt" (some ("3")) "palette_log.md"
        (some ["## Revision 4"])
      = Except.error (revisionMismatchLines 4 3 "revision.txt") :=
  ((revision_consistency_check 4 "revision.txt" (some ("3"))
    "palette_log.md" (some ["## Revision 4"])).2.1 3 (by rfl)
    (by decide)).1

theorem readChunks_flatten :
    ∀ (fuel : ℕ) (l : List ℕ), l.length ≤ fuel →
      List.flatten (readChunks fuel l) = l := by
  intro fuel
  induction fuel with
  | zero =>
    intro l h
    cases l with
    | nil => simp [readChunks]
    | cons a t => simp at h
  | succ n ih =>
    intro l h
    cases l with
    | nil => simp [readChunks]
    | cons a t =>
      rw [show readChunks (n + 1) (a :: t)
          = (a :: t).take 8192 :: readChunks n ((a :: t).drop 8192)
          from rfl]
      rw [List.flatten_cons, ih ((a :: t).drop 8192) ?_,
        List.take_append_drop]
      rw [List.length_drop]
      simp only [List.length_cons]
      simp at h
      omega

theorem compute_sha256_whole_file (hashFn : List ℕ → String)
    (fileBytes : List ℕ) :
    compute_sha256 hashFn fileBytes = hashFn fileBytes := by
  rw [compute_sha256, readChunks_flatten fileBytes.length fileBytes le_rfl]

/-- C6: verifying a manifest capture entry is a hard failure (exit 1)
whenever the PNG header's dimensions differ from the manifest entry's,
with a dimension-specific message distinct from the hash message, and
whenever the streamed 8 KiB SHA-256 differs from the recorded one, with
both hashes reported; success requires exact dimension and hash
agreement, and the streamed hash covers exactly the whole file. -/
theorem artifact_identity_verification :
    ∀ (tagKey rep bp : String) (aw ah : ℤ) (entry : ManifestEntry)
      (png : Option (ℤ × ℤ)) (fileBytes : List ℕ)
      (hashFn : List ℕ → String),
      (∀ w h paw pah, entry.width = some w → entry.height = some h →
        png = some (paw, pah) → (paw, pah) ≠ (w, h) →
        exitCodeOf (load_manifest_entry_check tagKey rep bp aw ah entry
          png fileBytes hashFn) = 1)
      ∧ (∀ paw pah, rep = bp → entry.width = some aw →
          entry.height = some ah → png = some (paw, pah) →
          (paw, pah) ≠ (aw, ah) →
          load_manifest_entry_check tagKey rep bp aw ah entry png
              fileBytes hashFn
            = Except.error (dimMismatchLines bp paw pah)
          ∧ ∀ rec act,
              dimMismatchLines bp paw pah ≠ hashMismatchLines tagKey rec act)
      ∧ (∀ recorded, rep = bp → entry.width = some aw →
          entry.height = some ah → png = some (aw, ah) →
          entry.sha256 = some recorded →
          compute_sha256 hashFn fileBytes ≠ recorded →
          load_manifest_entry_check tagKey rep bp aw ah entry png
              fileBytes hashFn
            = Except.error (hashMismatchLines tagKey recorded
                (compute_sha256 hashFn fileBytes))
          ∧ ("  manifest sha: " ++ recorded)
              ∈ hashMismatchLines tagKey recorded
                  (compute_sha256 hashFn fileBytes)
          ∧ ("  actual sha  : " ++ compute_sha256 hashFn fileBytes)
              ∈ hashMismatchLines tagKey recorded
                  (compute_sha256 hashFn fileBytes))
      ∧ (∀ sha, load_manifest_entry_check tagKey rep bp aw ah entry png
            fileBytes hashFn = Except.ok sha →
          rep = bp ∧ entry.width = some aw ∧ entry.height = some ah
          ∧ png = some (aw, ah) ∧ entry.sha256 = some sha
          ∧ sha = compute_sha256 hashFn fileBytes
          ∧ sha = hashFn fileBytes)
      ∧ compute_sha256 hashFn fileBytes = hashFn fileBytes := by
  intro tagKey rep bp aw ah entry png fileBytes hashFn
  obtain ⟨ew, eh, esha⟩ := entry
  refine ⟨?_, ?_, ?_, ?_, compute_sha256_whole_file hashFn fileBytes⟩
  · intro w h paw pah hw hh hpng hne
    simp only at hw hh
    subst hw hh hpng
    by_cases hpm : rep ≠ bp
    · simp [load_manifest_entry_check, hpm, exitCodeOf]
    · by_cases hargs : w ≠ aw ∨ h ≠ ah
      · simp [load_manifest_entry_check, hpm, hargs, exitCodeOf]
      · simp [load_manifest_entry_check, hpm, hargs, hne, exitCodeOf]
  · intro paw pah hrb hw hh hpng hne
    simp only at hw hh
    subst hrb hw hh hpng
    constructor
    · simp [load_manifest_entry_check, hne]
    · intro rec act h
      have hlen := congrArg List.length h
      simp [dimMismatchLines, hashMismatchLines] at hlen
  · intro recorded hrb hw hh hpng hsha hne
    simp only at hw hh hsha
    subst hrb hw hh hpng hsha
    refine ⟨?_, by simp [hashMismatchLines], by simp [hashMismatchLines]⟩
    simp [load_manifest_entry_check, hne]
  · intro sha hok
    by_cases hpm : rep ≠ bp
    · simp [load_manifest_entry_check, hpm] at hok
    · cases ew with
      | none => simp [load_manifest_entry_check, hpm] at hok
      | some w =>
        cases eh with
        | none => simp [load_manifest_entry_check, hpm] at hok
        | some h =>
          by_cases hargs : w ≠ aw ∨ h ≠ ah
          · simp [load_manifest_entry_check, hpm, hargs] at hok
          · push_neg at hargs
            obtain ⟨hwa, hha⟩ := hargs
            subst hwa hha
            cases png with
            | none => simp [load_manifest_entry_check, hpm] at hok
            | some pr =>
              obtain ⟨paw, pah⟩ := pr
              by_cases hdm : (paw, pah) ≠ (w, h)
              · simp [load_manifest_entry_check, hpm, hdm] at hok
              · push_neg at hdm
                cases esha with
                | none => simp [load_manifest_entry_check, hpm, hdm] at hok
                | some recorded =>
                  by_cases hhash :
                      compute_sha256 hashFn fileBytes ≠ recorded
                  · simp [load_manifest_entry_check, hpm, hdm, hhash]
                      at hok
                  · push_neg at hhash
                    simp [load_manifest_entry_check, hpm, hdm, hhash]
                      at hok
                    subst hok
                    refine ⟨not_not.mp hpm, rfl, rfl, by rw [hdm],
                      rfl, hhash.symm, ?_⟩
                    rw [← hhash, compute_sha256_whole_file]

/-- C6 witness: a PNG whose header reads 640x480 against a manifest
entry recording 1280x800 fails with the dimension-specific message. -/
theorem artifact_identity_verification_witness :
    load_manifest_entry_check ("1280x800") ("baseline.png") ("baseline.png")
        1280 800 ⟨some 1280, some 800, some "abc"⟩ (some (640, 480)) []
        (fun _ => "h")
      = Except.error (dimMismatchLines "baseline.png" 640 480) :=
  ((artifact_identity_verification ("1280x800") ("baseline.png")
    ("baseline.png") 1280 800 ⟨some 1280, some 800, some "abc"⟩
    (some (640, 480)) [] (fun _ => "h")).2.1 640 480 rfl rfl rfl rfl
    (by decide)).1

theorem matchNumber_none_iff (l : List Char) :
    matchNumber l = none ↔ startsNumeric l = false := by
  cases l with
  | nil => simp [matchNumber, startsNumeric]
  | cons c rest =>
    by_cases hsign : c == '+' || c == '-'
    · cases rest with
      | nil =>
        simp [matchNumber, startsNumeric, hsign]
      | cons d t =>
        by_cases hd : d.isDigit
        · simp [matchNumber, startsNumeric, hsign, hd,
            List.takeWhile_cons]
        · simp [matchNumber, startsNumeric, hsign, hd,
            List.takeWhile_cons]
    · by_cases hc : c.isDigit
      · simp [matchNumber, startsNumeric, hsign, hc,
          List.takeWhile_cons]
      · simp [matchNumber, startsNumeric, hsign, hc,
          List.takeWhile_cons]

theorem lookupD_eq_none_of_not_mem {α : Type} (d : List (String × α))
    (k : String) (h : k ∉ keysOf d) : lookupD d k = none := by
  induction d with
  | nil => rfl
  | cons p t ih =>
    have hpk : ¬ (p.1 = k) := by
      intro he
      exact h (List.mem_map.mpr ⟨p, List.mem_cons_self _ _, he⟩)
    have ht : k ∉ keysOf t := by
      intro hm
      obtain ⟨q, hq, he⟩ := List.mem_map.mp hm
      exact h (List.mem_map.mpr ⟨q, List.mem_cons_of_mem _ hq, he⟩)
    simp [lookupD, List.find?_cons, hpk] at ih ⊢
    exact ih ht

theorem lookup_map_set_ne {α : Type} (d : List (String × α))
    (k k2 : String) (v : α) (h : k2 ≠ k) :
    lookupD (d.map (fun p => if p.1 = k then (k, v) else p)) k2
      = lookupD d k2 := by
  induction d with
  | nil => rfl
  | cons p t ih =>
    by_cases hpk : p.1 = k
    · have h1 : ¬ ((k : String) = k2) := fun he => h he.symm
      have h2 : ¬ (p.1 = k2) := by rw [hpk]; exact h1
      simp only [List.map_cons, if_pos hpk]
      simp [lookupD, List.find?_cons, h1, h2] at ih ⊢
      exact ih
    · simp only [List.map_cons, if_neg hpk]
      by_cases hp2 : p.1 = k2
      · simp [lookupD, List.find?_cons, hp2]
      · simp [lookupD, List.find?_cons, hp2] at ih ⊢
        exact ih

theorem lookup_map_set_self {α : Type} (d : List (String × α))
    (k : String) (v : α) (h : k ∈ keysOf d) :
    lookupD (d.map (fun p => if p.1 = k then (k, v) else p)) k
      = some v := by
  induction d with
  | nil => simp [keysOf] at h
  | cons p t ih =>
    by_cases hpk : p.1 = k
    · simp only [List.map_cons, if_pos hpk]
      simp [lookupD, List.find?_cons]
    · simp only [List.map_cons, if_neg hpk]
      have ht : k ∈ keysOf t := by
        rcases List.mem_map.mp h with ⟨q, hq, he⟩
        rcases List.mem_cons.mp hq with rfl | hqt
        · exact absurd he hpk
        · exact List.mem_map.mpr ⟨q, hqt, he⟩
      simp [lookupD, List.find?_cons, hpk] at ih ⊢
      exact ih ht

theorem lookupD_append_single_self {α : Type} (d : List (String × α))
    (k : String) (v : α) : k ∉ keysOf d →
    lookupD (d ++ [(k, v)]) k = some v := by
  induction d with
  | nil =>
    intro _
    simp [lookupD, List.find?_cons]
  | cons p t ih =>
    intro hk
    have hpk : ¬ (p.1 = k) := by
      intro he
      exact hk (List.mem_map.mpr ⟨p, List.mem_cons_self _ _, he⟩)
    have ht : k ∉ keysOf t := by
      intro hm
      obtain ⟨q, hq, he⟩ := List.mem_map.mp hm
      exact hk (List.mem_map.mpr ⟨q, List.mem_cons_of_mem _ hq, he⟩)
    simp only [List.cons_append]
    simp [lookupD, List.find?_cons, hpk] at ih ⊢
    exact ih ht

theorem lookupD_append_single_ne {α : Type} (d : List (String × α))
    (k k2 : String) (v : α) (h : k2 ≠ k) :
    lookupD (d ++ [(k, v)]) k2 = lookupD d k2 := by
  induction d with
  | nil =>
    have hne : ¬ ((k : String) = k2) := fun he => h he.symm
    simp [lookupD, List.find?_cons, hne]
  | cons p t ih =>
    by_cases hp2 : p.1 = k2
    · simp [lookupD, List.find?_cons, hp2]
    · simp only [List.cons_append]
      simp [lookupD, List.find?_cons, hp2] at ih ⊢
      exact ih

theorem lookupD_insertD {α : Type} (d : List (String × α))
    (k k2 : String) (v : α) :
    lookupD (insertD d k v) k2
      = if k2 = k then some v else lookupD d k2 := by
  unfold insertD
  split
  · rename_i hmem
    have hk : k ∈ keysOf d := by
      simp only [List.any_eq_true, decide_eq_true_eq] at hmem
      obtain ⟨p, hp, he⟩ := hmem
      exact List.mem_map.mpr ⟨p, hp, he⟩
    by_cases hk2 : k2 = k
    · subst hk2
      rw [if_pos rfl]
      exact lookup_map_set_self d k2 v hk
    · rw [if_neg hk2]
      exact lookup_map_set_ne d k k2 v hk2
  · rename_i hnot
    have hk : k ∉ keysOf d := by
      intro hmem2
      apply hnot
      obtain ⟨q, hq, he⟩ := List.mem_map.mp hmem2
      simp only [List.any_eq_true, decide_eq_true_eq]
      exact ⟨q, hq, he⟩
    by_cases hk2 : k2 = k
    · subst hk2
      rw [if_pos rfl]
      exact lookupD_append_single_self d k2 v hk
    · rw [if_neg hk2]
      exact lookupD_append_single_ne d k k2 v hk2

theorem lookupD_foldl_insert_isSome (toks : List (String × String)) :
    ∀ (d : List (String × MetricEntry)) (k : String),
      ((lookupD d k).isSome = true ∨ ∃ v, (k, v) ∈ toks) →
      (lookupD (toks.foldl
          (fun d kv => insertD d kv.1 (mkEntry kv.2)) d) k).isSome
        = true := by
  induction toks with
  | nil =>
    intro d k h
    rcases h with h | ⟨v, hv⟩
    · exact h
    · simp at hv
  | cons kv rest ih =>
    intro d k h
    simp only [List.foldl_cons]
    apply ih
    rcases h with h | ⟨v, hv⟩
    · left
      rw [lookupD_insertD]
      by_cases hk : k = kv.1 <;> simp [hk, h]
    · rcases List.mem_cons.mp hv with heq | htail
      · left
        rw [lookupD_insertD]
        have hk : k = kv.1 := by rw [← heq]
        simp [hk]
      · right
        exact ⟨v, htail⟩

/-- C9: for every `key=value` token found on a stats line, the record's
raw string is the comma-stripped token; the record carries no numeric
value exactly when the token has no optionally-signed digit prefix (yet
the raw string is still recorded); a case-insensitive `mb`/`gb` unit
converts the value to bytes (×1024² / ×1024³, unit `bytes`); and the
parsed line retains a record under the token's key. -/
theorem stats_token_parsing :
    ∀ (line k v : String), (k, v) ∈ kvScan line →
      (mkEntry v).raw = rstripComma v
      ∧ ((mkEntry v).value = none ↔
          startsNumeric (rstripComma v).data = false)
      ∧ (∀ (n : ℚ) (u : String),
          matchNumber (rstripComma v).data = some (n, some u) →
          (lowerStr u = "mb" →
            (mkEntry v).value = some (n * (1024 * 1024))
            ∧ (mkEntry v).unit = some ("bytes"))
          ∧ (lowerStr u = "gb" →
            (mkEntry v).value = some (n * (1024 * 1024 * 1024))
            ∧ (mkEntry v).unit = some ("bytes")))
      ∧ (lookupD (parse_metrics_line line) k).isSome = true := by
  intro line k v hmem
  refine ⟨rfl, ?_, ?_, ?_⟩
  · cases hm : matchNumber (rstripComma v).data with
    | none =>
      have hval : (mkEntry v).value = none := by
        simp [mkEntry, parse_numeric, hm]
      rw [hval]
      simp [(matchNumber_none_iff _).mp hm]
    | some pr =>
      obtain ⟨n, uo⟩ := pr
      have hns : ¬ (startsNumeric (rstripComma v).data = false) := by
        intro hf
        rw [(matchNumber_none_iff _).mpr hf] at hm
        exact Option.noConfusion hm
      have hval : (mkEntry v).value ≠ none := by
        cases uo with
        | none => simp [mkEntry, parse_numeric, hm]
        | some u =>
          by_cases hmb : lowerStr u = "mb"
          · simp [mkEntry, parse_numeric, hm, hmb]
          · by_cases hgb : lowerStr u = "gb" <;>
              simp [mkEntry, parse_numeric, hm, hmb, hgb]
      simp [hval, hns]
  · intro n u hm
    constructor
    · intro hmb
      constructor <;> simp [mkEntry, parse_numeric, hm, hmb]
    · intro hgb
      have hmb : ¬ (lowerStr u = "mb") := by
        rw [hgb]
        decide
      constructor <;> simp [mkEntry, parse_numeric, hm, hmb, hgb]
  · unfold parse_metrics_line
    exact lookupD_foldl_insert_isSome (kvScan line) [] k
      (Or.inr ⟨v, hmem⟩)

/-- C9 witness: on a concrete stats line, the `n/a,` token keeps its
comma-stripped raw string and yields no numeric value. -/
theorem stats_token_parsing_witness :
    (mkEntry ("n/a,")).value = none :=
  ((stats_token_parsing ("Full repaint stats: avgMs=3.5 note=n/a,")
    ("note") ("n/a,") (by decide)).2.1).mpr (by decide)
